import Mathlib

/-!
Verification of the distributed Q-Former training step of `korblip2`
(`src/korblip2/model/blip2.py`), as a shallow embedding.

The embedding models the training-step algorithm of
`Blip2ForQformerTraining.forward` together with its helpers
`is_dist_avail_and_initialized` and `concat_all_gather`.  Tensors are
lists of rationals (one list level per tensor dimension); autograd
tracking is modelled by a `requiresGrad` flag on gathered tensors
together with an explicit grad-mode flag on the operations that the
source executes under `torch.no_grad()`.  The stochastic
`torch.multinomial` draws are modelled as oracle inputs (one sampled
index per anchor), and the external encoders (vision model, Q-Former,
projections) are out of scope: the forward model consumes their outputs
(`image_feats`, `text_feats`, `image_embeds`) as inputs, exactly as the
spec's §1 declares them external collaborators.  Fallible operations
(`dist.get_rank()` without an initialized process group, the
undefined-name return branch) are modelled with `Except`.
-/

/-- The ambient distributed runtime: whether `torch.distributed` is
available, whether the default process group is initialized, this
process's rank, and the world size. -/
structure DistCtx where
  available : Bool
  initialized : Bool
  rank : ℕ
  worldSize : ℕ
deriving DecidableEq

/-- Model of `is_dist_avail_and_initialized` (blip2.py lines 25-30):
true iff `dist.is_available()` and `dist.is_initialized()`. -/
def is_dist_avail_and_initialized (ctx : DistCtx) : Bool :=
  if !ctx.available then false
  else if !ctx.initialized then false
  else true

/-- Model of `torch.distributed.get_rank()`: returns the rank when the
default process group is initialized, otherwise raises
(`RuntimeError: Default process group has not been initialized`). -/
def getRank (ctx : DistCtx) : Except String ℕ :=
  if is_dist_avail_and_initialized ctx then Except.ok ctx.rank
  else Except.error "RuntimeError: Default process group has not been initialized"

/-- A tensor whose leading dimension is a list of rows of type `ρ`,
carrying its autograd `requires_grad`/graph-attachment flag. -/
structure GTensor (ρ : Type) where
  rows : List ρ
  requiresGrad : Bool
deriving DecidableEq

/-- Model of `torch.cat(ts, dim=0)` executed under grad mode `gm`: rows
are concatenated; the output is attached to the autograd graph iff grad
mode is enabled and some input is attached. -/
def torchCat {ρ : Type} (gm : Bool) (ts : List (GTensor ρ)) : GTensor ρ :=
  ⟨(ts.map GTensor.rows).flatten, gm && ts.any GTensor.requiresGrad⟩

/-- Model of `torch.distributed.nn.functional.all_gather` (imported as
`all_gather_with_backprop`) under grad mode `gm`: every process receives
every process's tensor; the outputs are recorded on the autograd graph
(differentiable exchange) iff grad mode is enabled and some input
requires grad. -/
def all_gather_with_backprop {ρ : Type} (gm : Bool) (world : List (GTensor ρ)) :
    List (GTensor ρ) :=
  world.map fun t => ⟨t.rows, gm && world.any GTensor.requiresGrad⟩

/-- Model of the plain `torch.distributed.all_gather` into fresh
`torch.ones_like` buffers (blip2.py lines 46-49): the data of every rank
arrives, but the buffers carry no autograd history. -/
def all_gather_plain {ρ : Type} (world : List (GTensor ρ)) : List (GTensor ρ) :=
  world.map fun t => ⟨t.rows, false⟩

/-- Model of `concat_all_gather(tensor, with_grad)` (blip2.py lines
33-52).  `others r` is the tensor contributed by rank `r`; the calling
process contributes `tensor` at position `ctx.rank`.  The whole function
is decorated `@torch.no_grad()`, so every operation in its body runs
with grad mode disabled: the `false` grad-mode arguments below encode
that decorator. -/
def concat_all_gather {ρ : Type} (ctx : DistCtx) (others : ℕ → GTensor ρ)
    (tensor : GTensor ρ) (with_grad : Bool) : GTensor ρ :=
  if !is_dist_avail_and_initialized ctx then tensor
  else
    let world := (List.range ctx.worldSize).map fun r =>
      if r = ctx.rank then tensor else others r
    if with_grad then torchCat false (all_gather_with_backprop false world)
    else torchCat false (all_gather_plain world)

/-- Dot product of two vectors. -/
def dot (u v : List ℚ) : ℚ := (List.zipWith (· * ·) u v).sum

/-- Squared L2 norm; `torch.nn.functional.normalize` (blip2.py lines
186 and 199) makes each output row satisfy `sumSq row = 1`. -/
def sumSq (v : List ℚ) : ℚ := dot v v

/-- Model of `torch.matmul(A, B.t())` for 2-d `A`, `B`: entry `(i, j)`
is the dot product of row `i` of `A` with row `j` of `B`. -/
def matmulT (A B : List (List ℚ)) : List (List ℚ) :=
  A.map fun a => B.map fun b => dot a b

/-- Transpose of a list-of-rows matrix, `m.t()`; column `j` is read with
`getD` (rows are rectangular in every use below). -/
def transposeL (m : List (List ℚ)) : List (List ℚ) :=
  (List.range (m.headD []).length).map fun j => m.map fun r => r.getD j 0

/-- Maximum of a list of rationals (`0` on the empty list; torch raises
there, and every use below is on nonempty lists). -/
def maxD : List ℚ → ℚ
  | [] => 0
  | x :: xs => xs.foldl max x

/-- Model of `t.max(dim=1)[0]` restricted to one batch element: for an
`nq × N` matrix, the length-`N` vector of column-wise maxima. -/
def maxDim1 (m : List (List ℚ)) : List ℚ := (transposeL m).map maxD

/-- Model of blip2.py lines 204-205: `sim_i2t = torch.matmul(image_feats,
text_feats_all.t())` followed by `sim_i2t.max(dim=1)`.  `imageFeats` is
`bs × nq × d` (per local image, per query slot), `textFeatsAll` is
`N × d`; the result is `bs × N`. -/
def simI2t (imageFeats : List (List (List ℚ))) (textFeatsAll : List (List ℚ)) :
    List (List ℚ) :=
  imageFeats.map fun im => maxDim1 (matmulT im textFeatsAll)

/-- Model of blip2.py lines 207-209: `sim_t2i = torch.matmul(
image_feats_all, text_feats.t())`, `.max(dim=1)`, then `.t()`.
`imageFeatsAll` is `N × nq × d`, `textFeats` is `bs × d`; the result is
`bs × N`. -/
def simT2i (imageFeatsAll : List (List (List ℚ))) (textFeats : List (List ℚ)) :
    List (List ℚ) :=
  transposeL (imageFeatsAll.map fun im => maxDim1 (matmulT im textFeats))

/-- Model of `torch.linspace(s, e, steps)` (values; `steps = 1` yields
`[s]`, otherwise evenly spaced endpoints-inclusive). -/
def torchLinspace (s e : ℚ) (steps : ℕ) : List ℚ :=
  (List.range steps).map fun (i : ℕ) =>
    if steps = 1 then s else s + (i : ℚ) * (e - s) / ((steps : ℚ) - 1)

/-- Model of blip2.py line 213: `targets = torch.linspace(rank * bs,
rank * bs + bs - 1, bs, dtype=int)` (the cast to an integer dtype
truncates; all values here are nonnegative integers, where truncation
and floor agree). -/
def targetsDef (rank bs : ℕ) : List ℤ :=
  (torchLinspace (rank * bs) ((rank * bs + bs : ℚ) - 1) bs).map fun q => ⌊q⌋

/-- Model of `m[:, lo : lo + len].fill_diagonal_(v)` (blip2.py lines
223-224): the slice is a view, so entry `(i, lo + i)` of `m` is set to
`v` for each `i` below both `len` and the slice's diagonal extent; all
other entries are unchanged. -/
def fillDiagSlice (m : List (List ℚ)) (lo len : ℕ) (v : ℚ) : List (List ℚ) :=
  (List.range m.length).map fun i =>
    let row := m.getD i []
    if i < len then
      (List.range row.length).map fun j => if j = lo + i then v else row.getD j 0
    else row

/-- Model of the text-negative id loop (blip2.py lines 238-245): for each
local anchor `b`, a single index `neg_idx = torch.multinomial(
weights_i2t[b], 1).item()` is drawn (here `draw b`, the multinomial draw
modelled as an oracle) and row `neg_idx` of the gathered global
`input_ids` is appended. -/
def textIdsNeg (allIds : List (List ℤ)) (draw : ℕ → ℕ) (bs : ℕ) :
    List (List ℤ) :=
  (List.range bs).map fun b => allIds.getD (draw b) []

/-- Model of the text-negative attention-mask loop (blip2.py lines
238-246): row `neg_idx` of the gathered global `attention_mask`, for the
same draw `draw b` as `textIdsNeg`. -/
def textAttsNeg (allAtts : List (List ℤ)) (draw : ℕ → ℕ) (bs : ℕ) :
    List (List ℤ) :=
  (List.range bs).map fun b => allAtts.getD (draw b) []

/-- Model of the image-negative loop (blip2.py lines 230-234): for each
local anchor `b`, the image embedding at the index drawn from
`weights_t2i[b]` is selected from the gathered global image embeddings. -/
def imageEmbedsNeg (allEmbeds : List (List (List ℚ))) (draw : ℕ → ℕ) (bs : ℕ) :
    List (List (List ℚ)) :=
  (List.range bs).map fun b => allEmbeds.getD (draw b) []

/-- Model of blip2.py lines 248-254: `text_ids_all = torch.cat([input_ids,
input_ids, text_ids_neg])` (comment in source: pos, pos, neg); the same
shape is used for the attention masks. -/
def tripletTexts {τ : Type} (ids neg : List τ) : List τ := ids ++ ids ++ neg

/-- Model of blip2.py lines 267-269: `image_embeds_all = torch.cat(
[image_embeds, image_embeds_neg, image_embeds])` (comment in source:
pos, neg, pos). -/
def tripletImages {ε : Type} (imgs neg : List ε) : List ε := imgs ++ neg ++ imgs

/-- The `(image, text)` row pairs of the assembled matching batch: row
`k` of the matching batch feeds image row `k` and text row `k` into the
joint encoder. -/
def tripletPairs {ε τ : Type} (imgs negI : List ε) (ids negT : List τ) :
    List (ε × τ) :=
  (tripletImages imgs negI).zip (tripletTexts ids negT)

/-- Model of blip2.py lines 286-289: `itm_labels = torch.cat([torch.ones(bs),
torch.zeros(2 * bs)])`. -/
def itmLabelsDef (bs : ℕ) : List ℤ :=
  List.replicate bs 1 ++ List.replicate (2 * bs) 0

/-- The intermediate tensors computed by one successful training step of
`Blip2ForQformerTraining.forward` (the Python function returns `None` on
the `return_dict` path — the structured return is commented out — so the
payload here is the step's named locals). -/
structure FwdOut where
  targets : List ℤ
  sim_i2t : List (List ℚ)
  sim_t2i : List (List ℚ)
  sim_i2t_sup : List (List ℚ)
  sim_t2i_sup : List (List ℚ)
  text_ids_neg : List (List ℤ)
  text_atts_neg : List (List ℤ)
  text_ids_all : List (List ℤ)
  text_atts_all : List (List ℤ)
  image_embeds_all_itm : List (List (List ℚ))
  itm_labels : List ℤ
deriving DecidableEq

/-- Model of `Blip2ForQformerTraining.forward` (blip2.py lines 151-297)
from the projected features onward; the external encoders' outputs are
inputs, given per rank (`world…` lists indexed by rank, the local rank's
entry being this process's batch).  `drawT2i`/`drawI2t` are the
`torch.multinomial` draws for the image- and text-negative loops.
Control flow mirrors the source: the no-grad gathers (lines 201-202,
229, 236-237), the similarity matrices (204-209), `dist.get_rank()`
(211, raising when the process group is not initialized), the linspace
targets (213), the in-place diagonal suppression (223-224), the
negative-sampling loops (230-246), the triplet assembly (248-289), and
the final branch (295-297) whose tuple references the undefined names
`logits_per_image`/`logits_per_text`. -/
def forward (ctx : DistCtx)
    (worldImageFeats : List (List (List (List ℚ))))
    (worldTextFeats : List (List (List ℚ)))
    (worldImageEmbeds : List (List (List (List ℚ))))
    (worldInputIds worldAttnMask : List (List (List ℤ)))
    (drawT2i drawI2t : ℕ → ℕ) (return_dict : Bool) : Except String FwdOut :=
  let image_feats := worldImageFeats.getD ctx.rank []
  let text_feats := worldTextFeats.getD ctx.rank []
  let image_embeds := worldImageEmbeds.getD ctx.rank []
  let input_ids := worldInputIds.getD ctx.rank []
  let attention_mask := worldAttnMask.getD ctx.rank []
  let image_feats_all := (concat_all_gather ctx
    (fun r => ⟨worldImageFeats.getD r [], true⟩) ⟨image_feats, true⟩ false).rows
  let text_feats_all := (concat_all_gather ctx
    (fun r => ⟨worldTextFeats.getD r [], true⟩) ⟨text_feats, true⟩ false).rows
  let sim_i2t := simI2t image_feats text_feats_all
  let sim_t2i := simT2i image_feats_all text_feats
  match getRank ctx with
  | Except.error e => Except.error e
  | Except.ok rank =>
    let bs := image_embeds.length
    let targets := targetsDef rank bs
    let sim_t2i_sup := fillDiagSlice sim_t2i (rank * bs) bs (-10000)
    let sim_i2t_sup := fillDiagSlice sim_i2t (rank * bs) bs (-10000)
    let image_embeds_all := (concat_all_gather ctx
      (fun r => ⟨worldImageEmbeds.getD r [], true⟩) ⟨image_embeds, true⟩ true).rows
    let image_embeds_neg := imageEmbedsNeg image_embeds_all drawT2i bs
    let text_input_ids_all := (concat_all_gather ctx
      (fun r => ⟨worldInputIds.getD r [], false⟩) ⟨input_ids, false⟩ false).rows
    let text_attention_mask_all := (concat_all_gather ctx
      (fun r => ⟨worldAttnMask.getD r [], false⟩) ⟨attention_mask, false⟩ false).rows
    let text_ids_neg := textIdsNeg text_input_ids_all drawI2t bs
    let text_atts_neg := textAttsNeg text_attention_mask_all drawI2t bs
    let text_ids_all := tripletTexts input_ids text_ids_neg
    let text_atts_all := tripletTexts attention_mask text_atts_neg
    let image_embeds_all_itm := tripletImages image_embeds image_embeds_neg
    let itm_labels := itmLabelsDef bs
    if return_dict then
      Except.ok ⟨targets, sim_i2t, sim_t2i, sim_i2t_sup, sim_t2i_sup,
        text_ids_neg, text_atts_neg, text_ids_all, text_atts_all,
        image_embeds_all_itm, itm_labels⟩
    else Except.error "NameError: name logits_per_image is not defined"

/-- Log-sum-exp of a row of logits; `F.log_softmax(row)[c] = row[c] -
logSumExp row`. -/
noncomputable def logSumExp (row : List ℝ) : ℝ :=
  Real.log ((row.map Real.exp).sum)

/-- One sample's `F.cross_entropy` term with label smoothing `eps`: with
`K = row.length` classes, the smoothed target distribution puts mass
`1 - eps` on the target class plus `eps / K` uniformly, and the loss is
minus its inner product with the log-softmax of the row. -/
noncomputable def ceRowLS (row : List ℝ) (t : ℕ) (eps : ℝ) : ℝ :=
  ∑ c ∈ Finset.range row.length,
    ((if c = t then 1 - eps else 0) + eps / row.length) *
      (logSumExp row - row.getD c 0)

/-- Model of `F.cross_entropy(logits, targets, label_smoothing=eps)`
with the default mean reduction. -/
noncomputable def crossEntropyLS (logits : List (List ℝ)) (targets : List ℤ)
    (eps : ℝ) : ℝ :=
  (∑ i ∈ Finset.range logits.length,
    ceRowLS (logits.getD i []) (targets.getD i 0).toNat eps) / logits.length

/-- Model of blip2.py lines 217-220: `loss_itc = (F.cross_entropy(sim_i2t,
targets, label_smoothing=0.1) + F.cross_entropy(sim_t2i, targets,
label_smoothing=0.1)) / 2`. -/
noncomputable def loss_itc (sim_i2t sim_t2i : List (List ℝ))
    (targets : List ℤ) : ℝ :=
  (crossEntropyLS sim_i2t targets (1 / 10)
    + crossEntropyLS sim_t2i targets (1 / 10)) / 2

/-- The spec's description of one directional loss (§4.3): a
label-smoothed multiclass cross-entropy in its standard decomposed form,
the mean over anchors of `(1 - eps) ·` (negative log-probability of the
anchor's target class) `+ eps ·` (mean negative log-probability over all
classes), where anchor `i`'s target class is `tgt i`. -/
noncomputable def smoothedDirLoss (logits : List (List ℝ)) (tgt : ℕ → ℕ)
    (eps : ℝ) : ℝ :=
  (∑ i ∈ Finset.range logits.length,
    ((1 - eps) * (logSumExp (logits.getD i []) - (logits.getD i []).getD (tgt i) 0)
      + eps * ((∑ c ∈ Finset.range (logits.getD i []).length,
          (logSumExp (logits.getD i []) - (logits.getD i []).getD c 0))
            / (logits.getD i []).length))) / logits.length

/-- Entry `(i, j)` of a list-of-rows matrix (default `0` out of range). -/
def entry (m : List (List ℚ)) (i j : ℕ) : ℚ := (m.getD i []).getD j 0

lemma getD_range_map {α : Type} (f : ℕ → α) (n i : ℕ) (d : α) :
    ((List.range n).map f).getD i d = if i < n then f i else d := by
  rw [List.getD_eq_getElem?_getD, List.getElem?_map]
  by_cases h : i < n
  · simp [List.getElem?_range, h]
  · rw [List.getElem?_eq_none (by simpa using Nat.le_of_not_lt h)]
    simp [h]

lemma getD_map_of_lt {α β : Type} (f : α → β) (l : List α) {i : ℕ}
    (h : i < l.length) (d : β) (d' : α) :
    (l.map f).getD i d = f (l.getD i d') := by
  rw [List.getD_eq_getElem?_getD, List.getElem?_map,
    List.getD_eq_getElem?_getD, List.getElem?_eq_getElem h]
  simp

lemma targetsDef_getD (r b i : ℕ) (h : i < b) :
    (targetsDef r b).getD i 0 = (r : ℤ) * b + i := by
  unfold targetsDef torchLinspace
  rw [List.map_map, getD_range_map]
  simp only [h, if_true, Function.comp]
  by_cases hb : b = 1
  · subst hb
    have hi : i = 0 := Nat.lt_one_iff.mp h
    subst hi
    push_cast
    simp
  · have hb2 : (1 : ℚ) ≤ (b : ℚ) := by
      exact_mod_cast Nat.one_le_iff_ne_zero.mpr (by omega)
    have hne : ((b : ℚ) - 1) ≠ 0 := by
      have : (2 : ℚ) ≤ (b : ℚ) := by exact_mod_cast (by omega : 2 ≤ b)
      linarith
    simp only [hb, if_false]
    have : ((r : ℚ) * b + b - 1 - r * b) = (b : ℚ) - 1 := by ring
    rw [this, mul_div_assoc, div_self hne, mul_one]
    have : ((r : ℚ) * b + i) = ((r * b + i : ℤ) : ℚ) := by push_cast; ring
    rw [this, Int.floor_intCast]

lemma targetsDef_length (r b : ℕ) : (targetsDef r b).length = b := by
  simp [targetsDef, torchLinspace]

lemma fillDiagSlice_length (m : List (List ℚ)) (lo len : ℕ) (v : ℚ) :
    (fillDiagSlice m lo len v).length = m.length := by
  simp [fillDiagSlice]

lemma fillDiagSlice_diag (m : List (List ℚ)) (lo len : ℕ) (v : ℚ) {i : ℕ}
    (hlen : i < len) (him : i < m.length)
    (hcol : lo + i < (m.getD i []).length) :
    entry (fillDiagSlice m lo len v) i (lo + i) = v := by
  simp only [entry, fillDiagSlice, getD_range_map, him, hlen, hcol, if_true]

lemma fillDiagSlice_off (m : List (List ℚ)) (lo len : ℕ) (v : ℚ) {i j : ℕ}
    (hij : j ≠ lo + i ∨ len ≤ i) :
    entry (fillDiagSlice m lo len v) i j = entry m i j := by
  unfold entry fillDiagSlice
  rw [getD_range_map]
  by_cases him : i < m.length
  · simp only [him, if_true]
    by_cases hlen : i < len
    · have hij' : j ≠ lo + i := by
        rcases hij with h | h
        · exact h
        · omega
      simp only [hlen, if_true, getD_range_map]
      by_cases hj : j < (m.getD i []).length
      · simp only [hj, if_true, hij', if_false]
      · simp only [hj, if_false]
        rw [List.getD_eq_default _ _ (Nat.le_of_not_lt hj)]
    · simp only [hlen, if_false]
  · simp only [him, if_false]
    rw [List.getD_eq_default _ _ (Nat.le_of_not_lt him)]

lemma maxDim1_matmulT_getD (A TFA : List (List ℚ)) {j : ℕ} (hj : j < TFA.length) :
    (maxDim1 (matmulT A TFA)).getD j 0
      = maxD (A.map fun a => dot a (TFA.getD j [])) := by
  cases A with
  | nil => simp [maxDim1, matmulT, transposeL, maxD]
  | cons a0 rest =>
    unfold maxDim1 transposeL matmulT
    rw [List.map_map, getD_range_map]
    simp only [List.map_cons, List.headD_cons, List.length_map, hj, if_true,
      Function.comp]
    congr 1
    rw [List.map_map]
    congr 1
    · exact getD_map_of_lt _ _ hj _ []
    · apply List.map_congr_left
      intro a _
      exact getD_map_of_lt _ _ hj _ []

lemma maxDim1_matmulT_length (A TFA : List (List ℚ)) (hA : A ≠ []) :
    (maxDim1 (matmulT A TFA)).length = TFA.length := by
  cases A with
  | nil => exact absurd rfl hA
  | cons a0 rest => simp [maxDim1, matmulT, transposeL]

lemma transposeL_entry (m : List (List ℚ)) {i j : ℕ}
    (hw : i < (m.headD []).length) (hj : j < m.length) :
    entry (transposeL m) i j = entry m j i := by
  unfold entry transposeL
  rw [getD_range_map]
  simp only [hw, if_true]
  rw [getD_map_of_lt _ _ hj _ []]

lemma simI2t_length (IF : List (List (List ℚ))) (TFA : List (List ℚ)) :
    (simI2t IF TFA).length = IF.length := by
  simp [simI2t]

lemma simI2t_row_length (IF : List (List (List ℚ))) (TFA : List (List ℚ))
    {i : ℕ} (hi : i < IF.length) (hA : IF.getD i [] ≠ []) :
    ((simI2t IF TFA).getD i []).length = TFA.length := by
  unfold simI2t
  rw [getD_map_of_lt _ _ hi _ []]
  exact maxDim1_matmulT_length _ _ hA

lemma simI2t_entry (IF : List (List (List ℚ))) (TFA : List (List ℚ)) {i j : ℕ}
    (hi : i < IF.length) (hj : j < TFA.length) :
    entry (simI2t IF TFA) i j
      = maxD ((IF.getD i []).map fun e => dot e (TFA.getD j [])) := by
  unfold entry simI2t
  rw [getD_map_of_lt _ _ hi _ []]
  exact maxDim1_matmulT_getD _ _ hj

lemma simT2i_entry (IFA : List (List (List ℚ))) (TF : List (List ℚ)) {i j : ℕ}
    (hi : i < TF.length) (hj : j < IFA.length) (h0 : IFA.getD 0 [] ≠ []) :
    entry (simT2i IFA TF) i j
      = maxD ((IFA.getD j []).map fun e => dot e (TF.getD i [])) := by
  unfold simT2i
  have hw : ((IFA.map fun im => maxDim1 (matmulT im TF)).headD []).length
      = TF.length := by
    cases IFA with
    | nil => simp at hj
    | cons im0 r =>
      simpa using maxDim1_matmulT_length im0 TF (by simpa using h0)
  rw [transposeL_entry _ (by rw [hw]; exact hi) (by simpa using hj)]
  unfold entry
  rw [getD_map_of_lt _ _ hj _ []]
  exact maxDim1_matmulT_getD _ _ hi

lemma ceRowLS_decomp (row : List ℝ) (t : ℕ) (eps : ℝ) (ht : t < row.length) :
    ceRowLS row t eps
      = (1 - eps) * (logSumExp row - row.getD t 0)
        + eps * ((∑ c ∈ Finset.range row.length,
            (logSumExp row - row.getD c 0)) / row.length) := by
  unfold ceRowLS
  have h1 : ∀ c ∈ Finset.range row.length,
      ((if c = t then 1 - eps else 0) + eps / row.length)
          * (logSumExp row - row.getD c 0)
        = (if c = t then (1 - eps) * (logSumExp row - row.getD c 0) else 0)
          + eps / row.length * (logSumExp row - row.getD c 0) := by
    intro c _
    by_cases h : c = t <;> simp [h, add_mul]
  rw [Finset.sum_congr rfl h1, Finset.sum_add_distrib, Finset.sum_ite_eq',
    if_pos (Finset.mem_range.mpr ht), ← Finset.mul_sum]
  ring

lemma crossEntropyLS_targets (L : List (List ℝ)) (rank bs : ℕ) (eps : ℝ)
    (hL : L.length = bs)
    (hK : ∀ i, i < bs → rank * bs + i < (L.getD i []).length) :
    crossEntropyLS L (targetsDef rank bs) eps
      = smoothedDirLoss L (fun i => rank * bs + i) eps := by
  unfold crossEntropyLS smoothedDirLoss
  congr 1
  apply Finset.sum_congr rfl
  intro i hi
  have hib : i < bs := hL ▸ Finset.mem_range.mp hi
  have htgt : ((targetsDef rank bs).getD i 0).toNat = rank * bs + i := by
    rw [targetsDef_getD rank bs i hib]
    have h2 : ((rank : ℤ) * bs + i) = ((rank * bs + i : ℕ) : ℤ) := by push_cast; ring
    rw [h2, Int.toNat_natCast]
  rw [htgt]
  exact ceRowLS_decomp _ _ _ (hK i hib)

lemma getD_zip {α β : Type} (a : List α) (b : List β) {i : ℕ}
    (ha : i < a.length) (hb : i < b.length) (d : α) (d' : β) :
    (a.zip b).getD i (d, d') = (a.getD i d, b.getD i d') := by
  rw [List.getD_eq_getElem _ _ (by rw [List.length_zip]; omega), List.getElem_zip,
    List.getD_eq_getElem _ _ ha, List.getD_eq_getElem _ _ hb]

/-- C8: when no multi-process context is active (`torch.distributed` not
available or not initialized), `concat_all_gather` returns its input
tensor unchanged, for both gradient modes (blip2.py lines 40-41). -/
theorem C8_single_process_identity {ρ : Type} (ctx : DistCtx)
    (h : is_dist_avail_and_initialized ctx = false) (others : ℕ → GTensor ρ)
    (tensor : GTensor ρ) (with_grad : Bool) :
    concat_all_gather ctx others tensor with_grad = tensor := by
  simp [concat_all_gather, h]

/-- Witness for `C8_single_process_identity`: a concrete non-distributed
context and a concrete tensor, in both gradient modes. -/
theorem C8_single_process_identity_witness :
    is_dist_avail_and_initialized ⟨false, false, 0, 1⟩ = false
    ∧ concat_all_gather ⟨false, false, 0, 1⟩ (fun _ => (⟨[], false⟩ : GTensor (List ℚ)))
        ⟨[[1]], true⟩ true = ⟨[[1]], true⟩
    ∧ concat_all_gather ⟨false, false, 0, 1⟩ (fun _ => (⟨[], false⟩ : GTensor (List ℚ)))
        ⟨[[1]], true⟩ false = ⟨[[1]], true⟩ :=
  ⟨by decide,
    C8_single_process_identity _ (by decide) _ _ _,
    C8_single_process_identity _ (by decide) _ _ _⟩

/-- C1: evaluation of the code at the failing input.  With the process
group initialized (world size 2) and a gradient-requiring input,
`concat_all_gather(tensor, with_grad=True)` returns the correctly
concatenated rows but with `requiresGrad = false`: the `@torch.no_grad()`
decorator on `concat_all_gather` (blip2.py line 33) runs the
backprop-capable all-gather with grad mode disabled, so its output is
detached from the autograd graph and no gradient can flow back to the
producing process — contradicting the claimed end-to-end
differentiability. -/
theorem C1_with_grad_gather_is_detached :
    (concat_all_gather ⟨true, true, 0, 2⟩
        (fun _ => (⟨[[2]], true⟩ : GTensor (List ℚ))) ⟨[[1]], true⟩ true).requiresGrad
      = false
    ∧ (concat_all_gather ⟨true, true, 0, 2⟩
        (fun _ => (⟨[[2]], true⟩ : GTensor (List ℚ))) ⟨[[1]], true⟩ true).rows
      = [[1], [2]] := by
  decide

/-- C4: evaluation of the code at the failing input.  With no
initialized process group (a plain single-process run), the forward
step does not complete: line 211 `rank = dist.get_rank()` raises
`RuntimeError` because there is no default process group, so the step
never degenerates to single-process behavior, contradicting the claim. -/
theorem C4_forward_without_init_raises :
    forward ⟨true, false, 0, 1⟩ [[[[1]]]] [[[1]]] [[[[1]]]] [[[7]]] [[[1]]]
        (fun _ => 0) (fun _ => 0) true
      = Except.error "RuntimeError: Default process group has not been initialized" := by
  rfl

/-- C5: the contrastive target vector has length `bs` and its `i`-th
entry is exactly `rank * bs + i`, the contiguous range of the rank's own
global indices (blip2.py line 213). -/
theorem C5_rank_offset_targets (rank bs i : ℕ) (h : i < bs) :
    (targetsDef rank bs).getD i 0 = (rank : ℤ) * bs + i
    ∧ (targetsDef rank bs).length = bs :=
  ⟨targetsDef_getD rank bs i h, targetsDef_length rank bs⟩

/-- Witness for `C5_rank_offset_targets` at rank 2, batch size 3,
index 1. -/
theorem C5_rank_offset_targets_witness :
    1 < 3 ∧ ((targetsDef 2 3).getD 1 0 = (2 : ℤ) * 3 + 1
      ∧ (targetsDef 2 3).length = 3) :=
  ⟨by decide, C5_rank_offset_targets 2 3 1 (by decide)⟩

/-- C9: whenever the forward step reaches its final branch with
`return_dict = False` (the process group being initialized so that
`dist.get_rank()` succeeds), it fails with an undefined-name error: the
tuple at blip2.py line 296 references `logits_per_image` and
`logits_per_text`, which are assigned nowhere in the function. -/
theorem C9_non_dict_branch_name_error (ctx : DistCtx)
    (h : is_dist_avail_and_initialized ctx = true)
    (wIF : List (List (List (List ℚ)))) (wTF : List (List (List ℚ)))
    (wIE : List (List (List (List ℚ)))) (wIds wAtts : List (List (List ℤ)))
    (dT dI : ℕ → ℕ) :
    forward ctx wIF wTF wIE wIds wAtts dT dI false
      = Except.error "NameError: name logits_per_image is not defined" := by
  unfold forward getRank
  rw [h]
  simp

/-- Witness for `C9_non_dict_branch_name_error` on a concrete
initialized context and batch. -/
theorem C9_non_dict_branch_name_error_witness :
    is_dist_avail_and_initialized ⟨true, true, 0, 1⟩ = true
    ∧ forward ⟨true, true, 0, 1⟩ [[[[1]]]] [[[1]]] [[[[1]]]] [[[7]]] [[[1]]]
        (fun _ => 0) (fun _ => 0) false
      = Except.error "NameError: name logits_per_image is not defined" :=
  ⟨by decide, C9_non_dict_branch_name_error _ (by decide) _ _ _ _ _ _ _⟩

/-- C6: the contrastive loss computed by the forward step (blip2.py
lines 217-220) equals the unweighted mean of two directional
label-smoothed (factor 0.1) multiclass cross-entropy losses — one on the
image-to-text matrix, one on the text-to-image matrix — each against the
rank-offset target vector, whose `i`-th target class is
`rank * bs + i`. -/
theorem C6_contrastive_loss_mean (S T : List (List ℝ)) (rank bs : ℕ)
    (hS : S.length = bs) (hT : T.length = bs)
    (hKS : ∀ i, i < bs → rank * bs + i < (S.getD i []).length)
    (hKT : ∀ i, i < bs → rank * bs + i < (T.getD i []).length) :
    loss_itc S T (targetsDef rank bs)
      = (smoothedDirLoss S (fun i => rank * bs + i) (1 / 10)
        + smoothedDirLoss T (fun i => rank * bs + i) (1 / 10)) / 2 := by
  unfold loss_itc
  rw [crossEntropyLS_targets S rank bs _ hS hKS,
    crossEntropyLS_targets T rank bs _ hT hKT]

/-- Witness for `C6_contrastive_loss_mean` on one-row logit matrices
with two classes at rank 0, batch size 1. -/
theorem C6_contrastive_loss_mean_witness :
    ([[(0 : ℝ), 0]] : List (List ℝ)).length = 1
    ∧ (∀ i, i < 1 → 0 * 1 + i < (([[(0 : ℝ), 0]] : List (List ℝ)).getD i []).length)
    ∧ loss_itc [[(0 : ℝ), 0]] [[(0 : ℝ), 0]] (targetsDef 0 1)
      = (smoothedDirLoss [[(0 : ℝ), 0]] (fun i => 0 * 1 + i) (1 / 10)
        + smoothedDirLoss [[(0 : ℝ), 0]] (fun i => 0 * 1 + i) (1 / 10)) / 2 :=
  ⟨by decide, by decide,
    C6_contrastive_loss_mean [[(0 : ℝ), 0]] [[(0 : ℝ), 0]] 0 1 (by decide) (by decide)
      (by decide) (by decide)⟩

/-- C7: each direction's similarity matrix is `local × global`, and its
`(i, j)` entry is the maximum over the image's query sub-embeddings of
the dot product between the (unit-norm, L2-normalized) projected
embeddings of local anchor `i` and global candidate `j` — a max
reduction, not an average, applied before the matrix is used (blip2.py
lines 186-209). -/
theorem C7_similarity_max_over_queries
    (IF : List (List (List ℚ))) (TFA : List (List ℚ))
    (IFA : List (List (List ℚ))) (TF : List (List ℚ))
    (hnI : ∀ im ∈ IF, ∀ e ∈ im, sumSq e = 1)
    (hnT : ∀ v ∈ TFA, sumSq v = 1)
    (hnIA : ∀ im ∈ IFA, ∀ e ∈ im, sumSq e = 1)
    (hnTF : ∀ v ∈ TF, sumSq v = 1)
    (hq : ∀ im ∈ IF, im ≠ []) (hqA : IFA.getD 0 [] ≠ []) :
    (simI2t IF TFA).length = IF.length
    ∧ (∀ i, i < IF.length → ((simI2t IF TFA).getD i []).length = TFA.length)
    ∧ (∀ i j, i < IF.length → j < TFA.length →
        entry (simI2t IF TFA) i j
          = maxD ((IF.getD i []).map fun e => dot e (TFA.getD j [])))
    ∧ (∀ i j, i < TF.length → j < IFA.length →
        entry (simT2i IFA TF) i j
          = maxD ((IFA.getD j []).map fun e => dot e (TF.getD i []))) := by
  refine ⟨simI2t_length IF TFA, fun i hi => ?_, fun i j hi hj => simI2t_entry IF TFA hi hj,
    fun i j hi hj => simT2i_entry IFA TF hi hj hqA⟩
  exact simI2t_row_length IF TFA hi
    (hq _ (by rw [List.getD_eq_getElem _ _ hi]; exact List.getElem_mem hi))

/-- Witness for `C7_similarity_max_over_queries` on concrete unit
vectors. -/
theorem C7_similarity_max_over_queries_witness :
    (∀ im ∈ ([[[1, 0]], [[0, 1]]] : List (List (List ℚ))), ∀ e ∈ im, sumSq e = 1)
    ∧ (∀ v ∈ ([[1, 0], [0, 1]] : List (List ℚ)), sumSq v = 1)
    ∧ (([[[1, 0]], [[0, 1]]] : List (List (List ℚ))).getD 0 [] ≠ [])
    ∧ ((simI2t [[[1, 0]], [[0, 1]]] [[1, 0], [0, 1]]).length
        = ([[[1, 0]], [[0, 1]]] : List (List (List ℚ))).length
      ∧ (∀ i, i < ([[[1, 0]], [[0, 1]]] : List (List (List ℚ))).length →
          ((simI2t [[[1, 0]], [[0, 1]]] [[1, 0], [0, 1]]).getD i []).length
            = ([[1, 0], [0, 1]] : List (List ℚ)).length)
      ∧ (∀ i j, i < ([[[1, 0]], [[0, 1]]] : List (List (List ℚ))).length →
          j < ([[1, 0], [0, 1]] : List (List ℚ)).length →
          entry (simI2t [[[1, 0]], [[0, 1]]] [[1, 0], [0, 1]]) i j
            = maxD ((([[[1, 0]], [[0, 1]]] : List (List (List ℚ))).getD i []).map
                fun e => dot e (([[1, 0], [0, 1]] : List (List ℚ)).getD j [])))
      ∧ (∀ i j, i < ([[1, 0], [0, 1]] : List (List ℚ)).length →
          j < ([[[1, 0]], [[0, 1]]] : List (List (List ℚ))).length →
          entry (simT2i [[[1, 0]], [[0, 1]]] [[1, 0], [0, 1]]) i j
            = maxD ((([[[1, 0]], [[0, 1]]] : List (List (List ℚ))).getD j []).map
                fun e => dot e (([[1, 0], [0, 1]] : List (List ℚ)).getD i [])))) :=
  ⟨by norm_num [sumSq, dot], by norm_num [sumSq, dot], by decide,
    C7_similarity_max_over_queries [[[1, 0]], [[0, 1]]] [[1, 0], [0, 1]]
      [[[1, 0]], [[0, 1]]] [[1, 0], [0, 1]]
      (by norm_num [sumSq, dot]) (by norm_num [sumSq, dot]) (by norm_num [sumSq, dot])
      (by norm_num [sumSq, dot]) (by decide) (by decide)⟩

/-- C10: for every local anchor `b`, the negative text's token-id row
and attention-mask row appended by the loop at blip2.py lines 238-246
are both taken at the same single sampled index `draw b`, so the
assembled pair is one aligned row pair of the gathered global batch. -/
theorem C10_neg_text_pair_aligned (allIds allAtts : List (List ℤ))
    (draw : ℕ → ℕ) (bs : ℕ) {b : ℕ} (hb : b < bs)
    (hdraw : draw b < allIds.length) (hlen : allAtts.length = allIds.length) :
    (textIdsNeg allIds draw bs).getD b [] = allIds.getD (draw b) []
    ∧ (textAttsNeg allAtts draw bs).getD b [] = allAtts.getD (draw b) []
    ∧ ((textIdsNeg allIds draw bs).getD b [],
        (textAttsNeg allAtts draw bs).getD b []) ∈ allIds.zip allAtts := by
  have h1 : (textIdsNeg allIds draw bs).getD b [] = allIds.getD (draw b) [] := by
    unfold textIdsNeg
    rw [getD_range_map]
    simp [hb]
  have h2 : (textAttsNeg allAtts draw bs).getD b [] = allAtts.getD (draw b) [] := by
    unfold textAttsNeg
    rw [getD_range_map]
    simp [hb]
  refine ⟨h1, h2, ?_⟩
  rw [h1, h2, ← getD_zip allIds allAtts hdraw (by omega) [] []]
  have hz : draw b < (allIds.zip allAtts).length := by
    rw [List.length_zip]
    omega
  rw [List.getD_eq_getElem _ _ hz]
  exact List.getElem_mem hz

/-- Witness for `C10_neg_text_pair_aligned` on a concrete global batch
of two samples with the draw picking index 1. -/
theorem C10_neg_text_pair_aligned_witness :
    0 < 1 ∧ (fun _ : ℕ => 1) 0 < ([[7], [9]] : List (List ℤ)).length
    ∧ ([[1], [2]] : List (List ℤ)).length = ([[7], [9]] : List (List ℤ)).length
    ∧ ((textIdsNeg [[7], [9]] (fun _ => 1) 1).getD 0 []
        = ([[7], [9]] : List (List ℤ)).getD 1 []
      ∧ (textAttsNeg [[1], [2]] (fun _ => 1) 1).getD 0 []
        = ([[1], [2]] : List (List ℤ)).getD 1 []
      ∧ ((textIdsNeg [[7], [9]] (fun _ => 1) 1).getD 0 [],
          (textAttsNeg [[1], [2]] (fun _ => 1) 1).getD 0 [])
        ∈ ([[7], [9]] : List (List ℤ)).zip [[1], [2]]) :=
  ⟨by decide, by decide, by decide,
    C10_neg_text_pair_aligned [[7], [9]] [[1], [2]] (fun _ => 1) 1
      (by decide) (by decide) (by decide)⟩

/-- C3 counterexample: on a concrete initialized run (world size 1,
batch size 2, rank 0), after suppression the entry at row 0, column 1 of
the text-to-image matrix — a column of the anchor's rank-owned diagonal
block `[0, 2)` — still equals `0`, which is not at most `-1e4`: the code
only fills the diagonal of the sliced block (blip2.py lines 223-224),
not every entry of the block. -/
theorem C3_counterexample :
    (forward ⟨true, true, 0, 1⟩ [[[[1, 0]], [[0, 1]]]] [[[1, 0], [0, 1]]]
        [[[[5]], [[6]]]] [[[7], [8]]] [[[1], [1]]] (fun _ => 0) (fun _ => 0)
        true).map (fun o => entry o.sim_t2i_sup 0 1) = Except.ok 0
    ∧ ¬ ((0 : ℚ) ≤ -10000) :=
  ⟨by with_unfolding_all rfl, by norm_num⟩

/-- C3 amended: after self-similarity suppression, for each local anchor
row `i < bs` the single entry at the anchor's own true-positive column
`rank * bs + i` is set to `-10000` (which is at most `-1e4`), while
every other entry — including the remaining columns of the rank-owned
diagonal block when `bs > 1` — keeps its original value.  This holds for
each of the two matrices the code suppresses in place. -/
theorem C3_amended_only_diagonal_suppressed (m : List (List ℚ)) (rank bs : ℕ)
    {i : ℕ} (hi : i < bs) (him : i < m.length)
    (hcol : rank * bs + i < (m.getD i []).length) :
    entry (fillDiagSlice m (rank * bs) bs (-10000)) i (rank * bs + i) = -10000
    ∧ ∀ i' j, (j ≠ rank * bs + i' ∨ bs ≤ i') →
        entry (fillDiagSlice m (rank * bs) bs (-10000)) i' j = entry m i' j :=
  ⟨fillDiagSlice_diag m _ _ _ hi him hcol,
    fun _ j h => fillDiagSlice_off m _ _ _ h⟩

/-- Witness for `C3_amended_only_diagonal_suppressed` on a concrete
2-by-2 matrix at rank 0, batch size 2, row 0. -/
theorem C3_amended_only_diagonal_suppressed_witness :
    0 < 2 ∧ 0 < ([[1, 0], [0, 1]] : List (List ℚ)).length
    ∧ 0 * 2 + 0 < (([[1, 0], [0, 1]] : List (List ℚ)).getD 0 []).length
    ∧ (entry (fillDiagSlice [[1, 0], [0, 1]] (0 * 2) 2 (-10000)) 0 (0 * 2 + 0)
        = -10000
      ∧ ∀ i' j, (j ≠ 0 * 2 + i' ∨ 2 ≤ i') →
          entry (fillDiagSlice [[1, 0], [0, 1]] (0 * 2) 2 (-10000)) i' j
            = entry [[1, 0], [0, 1]] i' j) :=
  ⟨by decide, by decide, by decide,
    C3_amended_only_diagonal_suppressed [[1, 0], [0, 1]] 0 2
      (by decide) (by decide) (by decide)⟩

/-- C2 counterexample: on a concrete run (world size 2, local batch size
1, rank 0, both draws selecting global index 1), row 1 of the assembled
matching batch — the first row of the second block — is the pair
(negative image, positive text) `([[2]], [7])`, not the claimed
(positive image, negative text) `([[1]], [9])`: the code concatenates
images as pos, neg, pos and texts as pos, pos, neg (blip2.py lines
248-269), so the claimed block order is swapped. -/
theorem C2_counterexample :
    (forward ⟨true, true, 0, 2⟩ [[[[1]]], [[[0]]]] [[[1]], [[0]]]
        [[[[1]]], [[[2]]]] [[[7]], [[9]]] [[[1]], [[1]]]
        (fun _ => 1) (fun _ => 1) true).map
      (fun o => (o.image_embeds_all_itm.zip o.text_ids_all).getD 1 ([], []))
      = Except.ok ([[2]], [7])
    ∧ (([[2]], [7]) : List (List ℚ) × List ℤ) ≠ ([[1]], [9]) :=
  ⟨by with_unfolding_all rfl, by decide⟩

/-- C2 amended: for local batch size `n`, the matching batch is the
concatenation, in this fixed order, of the blocks (positive image,
positive text), (negative image, positive text), (positive image,
negative text), each of size `n` — exactly `3n` rows — with labels
exactly `[1]*n + [0]*2n`. -/
theorem C2_amended_triplet_composition (imgs negI : List (List (List ℚ)))
    (ids negT : List (List ℤ)) (n : ℕ)
    (hI : imgs.length = n) (hT : ids.length = n)
    (hnI : negI.length = n) (hnT : negT.length = n) :
    (tripletPairs imgs negI ids negT).length = 3 * n
    ∧ (itmLabelsDef n).length = 3 * n
    ∧ (∀ i, i < 3 * n → (itmLabelsDef n).getD i 0 = if i < n then 1 else 0)
    ∧ (∀ i, i < n →
        (tripletPairs imgs negI ids negT).getD i ([], [])
            = (imgs.getD i [], ids.getD i [])
        ∧ (tripletPairs imgs negI ids negT).getD (n + i) ([], [])
            = (negI.getD i [], ids.getD i [])
        ∧ (tripletPairs imgs negI ids negT).getD (2 * n + i) ([], [])
            = (imgs.getD i [], negT.getD i [])) := by
  have hImgs : (tripletImages imgs negI).length = 3 * n := by
    simp [tripletImages, hI, hnI]
    omega
  have hTxts : (tripletTexts ids negT).length = 3 * n := by
    simp [tripletTexts, hT, hnT]
    omega
  have hploc : ∀ k, k < 3 * n →
      (tripletPairs imgs negI ids negT).getD k ([], [])
        = ((tripletImages imgs negI).getD k [],
            (tripletTexts ids negT).getD k []) := by
    intro k hk
    exact getD_zip _ _ (by rw [hImgs]; exact hk) (by rw [hTxts]; exact hk) _ _
  refine ⟨?_, ?_, ?_, ?_⟩
  · unfold tripletPairs
    rw [List.length_zip, hImgs, hTxts, min_self]
  · simp [itmLabelsDef]
    omega
  · intro i h3
    unfold itmLabelsDef
    by_cases hin : i < n
    · rw [List.getD_append _ _ _ _ (by simpa using hin),
        List.getD_eq_getElem _ _ (by simpa using hin), List.getElem_replicate]
      simp [hin]
    · rw [List.getD_append_right _ _ _ _ (by simpa using Nat.le_of_not_lt hin),
        List.getD_eq_getElem _ _ (by simp; omega), List.getElem_replicate]
      simp [hin]
  · intro i hin
    have e1 : (tripletImages imgs negI).getD i [] = imgs.getD i [] := by
      unfold tripletImages
      rw [List.getD_append _ _ _ _ (by rw [List.length_append]; omega),
        List.getD_append _ _ _ _ (by omega)]
    have e2 : (tripletImages imgs negI).getD (n + i) [] = negI.getD i [] := by
      unfold tripletImages
      rw [List.getD_append _ _ _ _ (by rw [List.length_append]; omega),
        List.getD_append_right _ _ _ _ (by omega)]
      have hx : n + i - imgs.length = i := by omega
      rw [hx]
    have e3 : (tripletImages imgs negI).getD (2 * n + i) [] = imgs.getD i [] := by
      unfold tripletImages
      rw [List.getD_append_right _ _ _ _ (by rw [List.length_append]; omega)]
      have hx : 2 * n + i - (imgs ++ negI).length = i := by
        rw [List.length_append]
        omega
      rw [hx]
    have f1 : (tripletTexts ids negT).getD i [] = ids.getD i [] := by
      unfold tripletTexts
      rw [List.getD_append _ _ _ _ (by rw [List.length_append]; omega),
        List.getD_append _ _ _ _ (by omega)]
    have f2 : (tripletTexts ids negT).getD (n + i) [] = ids.getD i [] := by
      unfold tripletTexts
      rw [List.getD_append _ _ _ _ (by rw [List.length_append]; omega),
        List.getD_append_right _ _ _ _ (by omega)]
      have hx : n + i - ids.length = i := by omega
      rw [hx]
    have f3 : (tripletTexts ids negT).getD (2 * n + i) [] = negT.getD i [] := by
      unfold tripletTexts
      rw [List.getD_append_right _ _ _ _ (by rw [List.length_append]; omega)]
      have hx : 2 * n + i - (ids ++ ids).length = i := by
        rw [List.length_append]
        omega
      rw [hx]
    exact ⟨by rw [hploc i (by omega), e1, f1],
      by rw [hploc (n + i) (by omega), e2, f2],
      by rw [hploc (2 * n + i) (by omega), e3, f3]⟩

/-- Witness for `C2_amended_triplet_composition` at batch size 1 with
distinct positive and negative rows. -/
theorem C2_amended_triplet_composition_witness :
    ([[[1]]] : List (List (List ℚ))).length = 1
    ∧ ([[7]] : List (List ℤ)).length = 1
    ∧ ([[[2]]] : List (List (List ℚ))).length = 1
    ∧ ([[9]] : List (List ℤ)).length = 1
    ∧ ((tripletPairs [[[1]]] [[[2]]] [[7]] [[9]]).length = 3 * 1
      ∧ (itmLabelsDef 1).length = 3 * 1
      ∧ (∀ i, i < 3 * 1 → (itmLabelsDef 1).getD i 0 = if i < 1 then 1 else 0)
      ∧ (∀ i, i < 1 →
          (tripletPairs [[[1]]] [[[2]]] [[7]] [[9]]).getD i ([], [])
              = (([[[1]]] : List (List (List ℚ))).getD i [],
                  ([[7]] : List (List ℤ)).getD i [])
          ∧ (tripletPairs [[[1]]] [[[2]]] [[7]] [[9]]).getD (1 + i) ([], [])
              = (([[[2]]] : List (List (List ℚ))).getD i [],
                  ([[7]] : List (List ℤ)).getD i [])
          ∧ (tripletPairs [[[1]]] [[[2]]] [[7]] [[9]]).getD (2 * 1 + i) ([], [])
              = (([[[1]]] : List (List (List ℚ))).getD i [],
                  ([[9]] : List (List ℤ)).getD i []))) :=
  ⟨by decide, by decide, by decide, by decide,
    C2_amended_triplet_composition [[[1]]] [[[2]]] [[7]] [[9]] 1
      (by decide) (by decide) (by decide) (by decide)⟩
